import Mathlib

/-!
Verification of the Ledger Aggregation Engine of the contable-peru
bookkeeping application.

The definitions below are a shallow embedding of the TypeScript source:

* `toNum`, `balancesOf`        — the per-account balance fold shared by the
  Income Statement (`BusinessFilter.tsx`, second component) and the Balance
  Sheet (`part_003`): `Number(line.debit) || 0`, `balances[code] += debit - credit`.
* `flowEntries` / `stockEntries` — the `accounting_entries` queries of the two
  statements (flow: `gte startDate`, `lte endDate`; stock: `lte endDate` only),
  plus the conditional `eq('business_id', …)` filter.
* `loadIncomeStatement` / `loadBalanceSheet` — the bodies of
  `loadIncomeStatement` / `loadBalanceSheet`, with the external fetches
  modelled as `Option` results (a `none` models a supabase `data: null`).
* `useAccountingEntriesQuery`  — the hook `useAccountingEntries`
  (`useAccountingEntries.ts`), whose failures are thrown (`Except.error`).
* `listEntries`, `isBalancedEntry` — the entry-listing page (`AccountingEntries`),
  which computes the per-entry `isBalanced` badge.
* `getDateRangeFromPeriod`, `getPeriodDates` — the period resolver of
  `periodUtils.ts` and its local duplicate in `AccountingEntries`.

Amounts are modelled as rationals; a journal line's raw `debit`/`credit`
field is a `RawNum` so that missing (`null`) and non-numeric values can be
represented (`Number(x) || 0` maps both to `0`). Dates of journal entries
are modelled as naturals (day ordinals); the supabase `gte`/`lte`
comparisons on ISO date strings agree with this order.
-/

namespace ContablePeru

/-- Account types of the chart of accounts (`account_type` column). -/
inductive AccountType where
  | asset
  | liability
  | equity
  | income
  | expense
deriving DecidableEq, Repr

/-- A row of `chart_of_accounts`. -/
structure Account where
  code : String
  name : String
  account_type : AccountType
  category : String
deriving DecidableEq, Repr

/-- A row of `accounting_entries` (the header of a journal entry). -/
structure Entry where
  id : String
  date : Nat
  business_id : String
  description : String
  transaction_id : Option String
deriving DecidableEq, Repr

/-- A raw numeric field as it arrives from the data layer: a number, a
missing (`null`) value, or malformed non-numeric data. -/
inductive RawNum where
  | num (q : ℚ)
  | missing
  | malformed
deriving DecidableEq, Repr

/-- `Number(x) || 0`: a numeric field is used as-is, a missing field becomes
`Number(null) = 0`, and a malformed field becomes `NaN`, which `|| 0`
replaces by `0`. -/
def toNum : RawNum → ℚ
  | .num q => q
  | .missing => 0
  | .malformed => 0

/-- A row of `accounting_entry_lines`. -/
structure RawLine where
  id : Nat
  entry_id : String
  account_code : String
  account_name : String
  debit : RawNum
  credit : RawNum
deriving DecidableEq, Repr

/-- The in-memory data store: the three tables the engine queries. -/
structure DB where
  accounts : List Account
  entries : List Entry
  lines : List RawLine
deriving DecidableEq, Repr

/-- The net movement `debit - credit` a single line contributes to its
account's balance. -/
def lineNet (l : RawLine) : ℚ := toNum l.debit - toNum l.credit

/-- One step of the balances fold: `balances[code] += amt`, initialising the
slot to `0` when absent (`if (!balances[code]) balances[code] = 0`). JS
object keys keep insertion order, hence the association list. -/
def addToBalances : List (String × ℚ) → String → ℚ → List (String × ℚ)
  | [], code, amt => [(code, amt)]
  | (c, v) :: rest, code, amt =>
    if c = code then (c, v + amt) :: rest
    else (c, v) :: addToBalances rest code amt

/-- The balances fold of both statements:
`lines.forEach(line => { balances[line.account_code] += debit - credit })`. -/
def balancesOf (lines : List RawLine) : List (String × ℚ) :=
  lines.foldl (fun bs l => addToBalances bs l.account_code (lineNet l)) []

/-- Reading `balances[code] || 0`: the stored value when the key is present,
`0` otherwise (a stored `0` also reads back as `0`). -/
def lookupBalance (bs : List (String × ℚ)) (code : String) : ℚ :=
  match bs.find? (fun p => p.1 = code) with
  | some p => p.2
  | none => 0

/-- Sum of the values of a balances map. -/
def sumValues (bs : List (String × ℚ)) : ℚ := (bs.map Prod.snd).sum

/-- The amount an account reads back from the fold: the sum of `debit - credit`
over the lines touching that account code. -/
def rawNet (ls : List RawLine) (code : String) : ℚ :=
  ((ls.filter (fun l => l.account_code = code)).map lineNet).sum

/-- Lexicographic order on code-point lists, modelling the text ordering the
data layer uses for `.order('code')`. -/
def ltCodes : List Char → List Char → Bool
  | [], [] => false
  | [], _ :: _ => true
  | _ :: _, [] => false
  | a :: as, b :: bs => if a < b then true else if b < a then false else ltCodes as bs

/-- Order of two accounts under `.order('code')` (ascending by code). -/
def accountCodeLe (a b : Account) : Prop :=
  ltCodes a.code.data b.code.data = true ∨ a.code = b.code

instance : DecidableRel accountCodeLe := fun _ _ => instDecidableOr

/-- The `.order('code')` sort applied to fetched accounts. -/
def sortByCode (accs : List Account) : List Account := accs.insertionSort accountCodeLe

/-- The conditional business filter of both statements:
`if (businessId && businessId !== 'all') query.eq('business_id', businessId)`. -/
def businessApplies (businessId : String) (e : Entry) : Bool :=
  if businessId ≠ "" ∧ businessId ≠ "all" then decide (e.business_id = businessId) else true

/-- The Income Statement's entries query: `gte('date', startDate)` and
`lte('date', endDate)` plus the business filter (flow scope). -/
def flowEntries (db : DB) (bid : String) (startDate endDate : Nat) : List Entry :=
  db.entries.filter
    (fun en => decide (startDate ≤ en.date) && decide (en.date ≤ endDate)
      && businessApplies bid en)

/-- Ids of the flow-scoped entries (`entries?.map(e => e.id)`). -/
def flowEntryIds (db : DB) (bid : String) (startDate endDate : Nat) : List String :=
  (flowEntries db bid startDate endDate).map (fun e => e.id)

/-- The Balance Sheet's entries query: only `lte('date', endDate)` plus the
business filter (stock scope; `startDate` is never consulted). -/
def stockEntries (db : DB) (bid : String) (endDate : Nat) : List Entry :=
  db.entries.filter (fun en => decide (en.date ≤ endDate) && businessApplies bid en)

/-- Ids of the stock-scoped entries. -/
def stockEntryIds (db : DB) (bid : String) (endDate : Nat) : List String :=
  (stockEntries db bid endDate).map (fun e => e.id)

/-- The data layer as seen by one report computation: the store plus, for each
of the three fetches, whether it succeeds (`false` models a fetch whose
supabase result carries `data: null`). -/
structure Fetch where
  db : DB
  accountsOk : Bool
  entriesOk : Bool
  linesOk : Bool
deriving DecidableEq, Repr

/-- A data layer in which every fetch succeeds. -/
def okFetch (db : DB) : Fetch := ⟨db, true, true, true⟩

/-- Account-type filter of the Income Statement's chart query
(`in('account_type', ['income', 'expense'])`). -/
def isIncomeOrExpense (a : Account) : Bool :=
  decide (a.account_type = AccountType.income ∨ a.account_type = AccountType.expense)

/-- Account-type filter of the Balance Sheet's chart query
(`in('account_type', ['asset', 'liability', 'equity'])`). -/
def isBalanceSheetType (a : Account) : Bool :=
  decide (a.account_type = AccountType.asset ∨ a.account_type = AccountType.liability
    ∨ a.account_type = AccountType.equity)

/-- The Income Statement's chart-of-accounts fetch. -/
def accountsQueryIE (f : Fetch) : Option (List Account) :=
  if f.accountsOk then some (sortByCode (f.db.accounts.filter isIncomeOrExpense)) else none

/-- The Balance Sheet's chart-of-accounts fetch. -/
def accountsQueryALE (f : Fetch) : Option (List Account) :=
  if f.accountsOk then some (sortByCode (f.db.accounts.filter isBalanceSheetType)) else none

/-- The Income Statement's entries fetch. -/
def entriesQueryFlow (f : Fetch) (bid : String) (startDate endDate : Nat) :
    Option (List Entry) :=
  if f.entriesOk then some (flowEntries f.db bid startDate endDate) else none

/-- The Balance Sheet's entries fetch. -/
def entriesQueryStock (f : Fetch) (bid : String) (endDate : Nat) : Option (List Entry) :=
  if f.entriesOk then some (stockEntries f.db bid endDate) else none

/-- The lines fetch of both statements: `in('entry_id', entryIds)`. -/
def linesQuery (f : Fetch) (entryIds : List String) : Option (List RawLine) :=
  if f.linesOk then some (f.db.lines.filter (fun l => entryIds.contains l.entry_id)) else none

/-- The shared balances block of both statements: skip the lines fetch when
`entryIds.length === 0`; when the fetch yields no data (`if (lines)`) the
balances object stays empty. -/
def scopedBalances (f : Fetch) (entryIds : List String) : List (String × ℚ) :=
  if entryIds.isEmpty then []
  else
    match linesQuery f entryIds with
    | none => []
    | some lines => balancesOf lines

/-- The lines that actually reach the Income Statement's fold. -/
def flowScopeLines (db : DB) (bid : String) (startDate endDate : Nat) : List RawLine :=
  db.lines.filter (fun l => (flowEntryIds db bid startDate endDate).contains l.entry_id)

/-- The lines that actually reach the Balance Sheet's fold. -/
def stockScopeLines (db : DB) (bid : String) (endDate : Nat) : List RawLine :=
  db.lines.filter (fun l => (stockEntryIds db bid endDate).contains l.entry_id)

/-- A surfaced account balance (`AccountBalance` interface of both statements). -/
structure AccountBalance where
  code : String
  name : String
  balance : ℚ
  category : String
deriving DecidableEq, Repr

/-- The component state `loadIncomeStatement` produces. -/
structure IncomeStatementState where
  incomeAccounts : List AccountBalance
  expenseAccounts : List AccountBalance
deriving DecidableEq, Repr

/-- Body of `loadIncomeStatement` (`IncomeStatement` component): fetch the
income/expense chart, the flow-scoped entry ids and their lines, fold the
balances, then surface income accounts negated and expense accounts raw,
dropping zero balances. A failed accounts fetch sets both lists empty. -/
def loadIncomeStatement (f : Fetch) (bid : String) (startDate endDate : Nat) :
    IncomeStatementState :=
  match accountsQueryIE f with
  | none => ⟨[], []⟩
  | some accounts =>
    let entryIds := ((entriesQueryFlow f bid startDate endDate).map
      (fun es => es.map (fun e => e.id))).getD []
    let balances := scopedBalances f entryIds
    let income := ((accounts.filter (fun a => a.account_type = AccountType.income)).map
      (fun a => AccountBalance.mk a.code a.name (-(lookupBalance balances a.code))
        a.category)).filter (fun a => a.balance ≠ 0)
    let expenses := ((accounts.filter (fun a => a.account_type = AccountType.expense)).map
      (fun a => AccountBalance.mk a.code a.name (lookupBalance balances a.code)
        a.category)).filter (fun a => a.balance ≠ 0)
    ⟨income, expenses⟩

/-- `reduce((sum, acc) => sum + acc.balance, 0)`. -/
def sumAccountBalances (accs : List AccountBalance) : ℚ :=
  accs.foldl (fun sum acc => sum + acc.balance) 0

def totalIncome (st : IncomeStatementState) : ℚ := sumAccountBalances st.incomeAccounts

def totalExpenses (st : IncomeStatementState) : ℚ := sumAccountBalances st.expenseAccounts

def netIncome (st : IncomeStatementState) : ℚ := totalIncome st - totalExpenses st

/-- The component state `loadBalanceSheet` produces. -/
structure BalanceSheetState where
  assetAccounts : List AccountBalance
  liabilityAccounts : List AccountBalance
  equityAccounts : List AccountBalance
deriving DecidableEq, Repr

/-- Body of `loadBalanceSheet` (`BalanceSheet` component): fetch the
asset/liability/equity chart, the stock-scoped entry ids (`lte('date',
endDate)` only) and their lines, fold the balances, then surface assets raw
and liabilities/equity negated, dropping zero balances. -/
def loadBalanceSheet (f : Fetch) (bid : String) (endDate : Nat) : BalanceSheetState :=
  match accountsQueryALE f with
  | none => ⟨[], [], []⟩
  | some accounts =>
    let entryIds := ((entriesQueryStock f bid endDate).map
      (fun es => es.map (fun e => e.id))).getD []
    let balances := scopedBalances f entryIds
    let assets := ((accounts.filter (fun a => a.account_type = AccountType.asset)).map
      (fun a => AccountBalance.mk a.code a.name (lookupBalance balances a.code)
        a.category)).filter (fun a => a.balance ≠ 0)
    let liabilities := ((accounts.filter
      (fun a => a.account_type = AccountType.liability)).map
      (fun a => AccountBalance.mk a.code a.name (-(lookupBalance balances a.code))
        a.category)).filter (fun a => a.balance ≠ 0)
    let equity := ((accounts.filter (fun a => a.account_type = AccountType.equity)).map
      (fun a => AccountBalance.mk a.code a.name (-(lookupBalance balances a.code))
        a.category)).filter (fun a => a.balance ≠ 0)
    ⟨assets, liabilities, equity⟩

def totalAssets (st : BalanceSheetState) : ℚ := sumAccountBalances st.assetAccounts

def totalLiabilities (st : BalanceSheetState) : ℚ := sumAccountBalances st.liabilityAccounts

def totalEquity (st : BalanceSheetState) : ℚ := sumAccountBalances st.equityAccounts

def totalLiabilitiesAndEquity (st : BalanceSheetState) : ℚ :=
  totalLiabilities st + totalEquity st

/-- The accounting-equation check of the Balance Sheet:
`Math.abs(totalAssets - totalLiabilitiesAndEquity) < 0.01`. -/
def balancedSignal (st : BalanceSheetState) : Bool :=
  decide (|totalAssets st - totalLiabilitiesAndEquity st| < 1 / 100)

/-- One step of the category grouping `reduce`: push the item onto its
category's list, creating the key (at the end, in first-seen order) when
absent. -/
def addToGroup (groups : List (String × List AccountBalance)) (item : AccountBalance) :
    List (String × List AccountBalance) :=
  match groups with
  | [] => [(item.category, [item])]
  | (c, xs) :: rest =>
    if c = item.category then (c, xs ++ [item]) :: rest
    else (c, xs) :: addToGroup rest item

/-- The category grouping of both statements
(`reduce((acc, item) => { acc[item.category].push(item) }, {})`). -/
def groupByCategory (accs : List AccountBalance) : List (String × List AccountBalance) :=
  accs.foldl addToGroup []

/-- All account balances appearing in a grouped output. -/
def groupMembers (groups : List (String × List AccountBalance)) : List AccountBalance :=
  (groups.map Prod.snd).flatten

/-- Options of the `useAccountingEntries` hook; `none` models an absent
(`undefined`) option. -/
structure EntriesOptions where
  businessId : Option String
  startDate : Option Nat
  endDate : Option Nat
deriving DecidableEq, Repr

/-- The conditional filters of the hook's entries query. -/
def hookEntriesFilter (o : EntriesOptions) (en : Entry) : Bool :=
  (match o.businessId with
   | some b => if b ≠ "" ∧ b ≠ "all" then decide (en.business_id = b) else true
   | none => true)
  && (match o.startDate with
      | some s => decide (s ≤ en.date)
      | none => true)
  && (match o.endDate with
      | some e => decide (en.date ≤ e)
      | none => true)

/-- `order('date', { ascending: false })` of the hook's entries query. -/
def entryDateGe (a b : Entry) : Prop := b.date ≤ a.date

instance : DecidableRel entryDateGe := fun a b => Nat.decLe b.date a.date

def sortByDateDesc (ens : List Entry) : List Entry := ens.insertionSort entryDateGe

/-- A line of an entry as the hook returns it (`AccountingEntryLine`). -/
structure AccountingEntryLine where
  id : Nat
  account_code : String
  account_name : String
  debit : ℚ
  credit : ℚ
deriving DecidableEq, Repr

/-- An entry with its lines as the hook returns it (`AccountingEntry`). -/
structure AccountingEntry where
  id : String
  date : Nat
  business_id : String
  description : String
  transaction_id : Option String
  lines : List AccountingEntryLine
deriving DecidableEq, Repr

/-- The hook's combination step: attach to an entry the fetched lines whose
`entry_id` matches, defaulting `debit`/`credit` through `Number(x) || 0`. -/
def combineEntry (lines : List RawLine) (en : Entry) : AccountingEntry :=
  { id := en.id, date := en.date, business_id := en.business_id,
    description := en.description, transaction_id := en.transaction_id,
    lines := (lines.filter (fun l => l.entry_id = en.id)).map
      (fun l => AccountingEntryLine.mk l.id l.account_code l.account_name
        (toNum l.debit) (toNum l.credit)) }

/-- The query function of `useAccountingEntries`: a failed entries fetch
throws (`if (entriesError) throw entriesError`), an empty entry set
short-circuits to `[]`, a failed lines fetch throws
(`if (linesError) throw linesError`), otherwise entries are combined with
their lines. -/
def useAccountingEntriesQuery (f : Fetch) (o : EntriesOptions) :
    Except String (List AccountingEntry) :=
  if f.entriesOk then
    let entries := sortByDateDesc (f.db.entries.filter (hookEntriesFilter o))
    if entries.isEmpty then Except.ok []
    else
      if f.linesOk then
        let entryIds := entries.map (fun e => e.id)
        let lines := f.db.lines.filter (fun l => entryIds.contains l.entry_id)
        Except.ok (entries.map (combineEntry lines))
      else Except.error "linesError"
  else Except.error "entriesError"

/-- `entry.lines.reduce((sum, e) => sum + e.debit, 0)` of the listing page. -/
def entryTotalDebit (en : AccountingEntry) : ℚ :=
  en.lines.foldl (fun sum e => sum + e.debit) 0

/-- `entry.lines.reduce((sum, e) => sum + e.credit, 0)` of the listing page. -/
def entryTotalCredit (en : AccountingEntry) : ℚ :=
  en.lines.foldl (fun sum e => sum + e.credit) 0

/-- `isBalanced = Math.abs(totalDebit - totalCredit) < 0.01`. -/
def isBalancedEntry (en : AccountingEntry) : Bool :=
  decide (|entryTotalDebit en - entryTotalCredit en| < 1 / 100)

/-- One card of the entry listing: the entry plus its balanced badge. -/
structure ListedEntry where
  entry : AccountingEntry
  balanced : Bool
deriving DecidableEq, Repr

/-- The rendered entry listing: every fetched entry, each with its badge. -/
def listEntries (res : List AccountingEntry) : List ListedEntry :=
  res.map (fun en => ⟨en, isBalancedEntry en⟩)

/-- A calendar date, standing for the `Date` value `now = new Date()`. -/
structure SimpleDate where
  year : Nat
  month : Nat
  day : Nat
deriving DecidableEq, Repr

def isLeapYear (y : Nat) : Bool := (y % 4 == 0 && y % 100 != 0) || y % 400 == 0

def daysInMonth (y m : Nat) : Nat :=
  if m = 2 then (if isLeapYear y then 29 else 28)
  else if m = 4 ∨ m = 6 ∨ m = 9 ∨ m = 11 then 30
  else 31

def startOfMonth (d : SimpleDate) : SimpleDate := ⟨d.year, d.month, 1⟩

def endOfMonth (d : SimpleDate) : SimpleDate := ⟨d.year, d.month, daysInMonth d.year d.month⟩

def subOneMonth (d : SimpleDate) : SimpleDate :=
  if d.month = 1 then ⟨d.year - 1, 12, d.day⟩ else ⟨d.year, d.month - 1, d.day⟩

def startOfQuarter (d : SimpleDate) : SimpleDate := ⟨d.year, (d.month - 1) / 3 * 3 + 1, 1⟩

def endOfQuarter (d : SimpleDate) : SimpleDate :=
  let m := (d.month - 1) / 3 * 3 + 3
  ⟨d.year, m, daysInMonth d.year m⟩

def startOfYear (d : SimpleDate) : SimpleDate := ⟨d.year, 1, 1⟩

def endOfYear (d : SimpleDate) : SimpleDate := ⟨d.year, 12, 31⟩

def subOneYear (d : SimpleDate) : SimpleDate := ⟨d.year - 1, d.month, d.day⟩

def pad2 (n : Nat) : String := if n < 10 then "0" ++ toString n else toString n

/-- `format(d, 'yyyy-MM-dd')`. -/
def formatDate (d : SimpleDate) : String :=
  toString d.year ++ "-" ++ pad2 d.month ++ "-" ++ pad2 d.day

/-- The `{ startDate, endDate }` result of `getDateRangeFromPeriod`. -/
structure PeriodRange where
  startDate : String
  endDate : String
deriving DecidableEq, Repr

/-- `getDateRangeFromPeriod` of `periodUtils.ts`, with the single `now`
captured at the start of the call passed explicitly. The `switch` falls
through to the `current-month` range on every unrecognized token. -/
def getDateRangeFromPeriod (period : String) (now : SimpleDate) : PeriodRange :=
  if period = "current-month" then
    ⟨formatDate (startOfMonth now), formatDate (endOfMonth now)⟩
  else if period = "last-month" then
    let lastMonth := subOneMonth now
    ⟨formatDate (startOfMonth lastMonth), formatDate (endOfMonth lastMonth)⟩
  else if period = "current-quarter" then
    ⟨formatDate (startOfQuarter now), formatDate (endOfQuarter now)⟩
  else if period = "current-year" then
    ⟨formatDate (startOfYear now), formatDate (endOfYear now)⟩
  else if period = "last-year" then
    let lastYear := subOneYear now
    ⟨formatDate (startOfYear lastYear), formatDate (endOfYear lastYear)⟩
  else if period = "all" then ⟨"", ""⟩
  else ⟨formatDate (startOfMonth now), formatDate (endOfMonth now)⟩

/-- The `{ start, end }` result of the local `getPeriodDates`; `none` models
`undefined` (the TS field `end` is a Lean keyword, hence `stop`). -/
structure OptRange where
  start : Option String
  stop : Option String
deriving DecidableEq, Repr

/-- `getPeriodDates`, the local duplicate resolver inside the
`AccountingEntries` page: only three tokens are recognized
(`current-year` ends at `now`, not at Dec 31), and the `default` branch —
reached also by `'all'` — yields `{ start: undefined, end: undefined }`. -/
def getPeriodDates (period : String) (now : SimpleDate) : OptRange :=
  if period = "current-month" then
    ⟨some (formatDate (startOfMonth now)), some (formatDate (endOfMonth now))⟩
  else if period = "last-month" then
    let lastMonth := subOneMonth now
    ⟨some (formatDate (startOfMonth lastMonth)), some (formatDate (endOfMonth lastMonth))⟩
  else if period = "current-year" then
    ⟨some (formatDate (startOfYear now)), some (formatDate now)⟩
  else ⟨none, none⟩

/-- The raw net movement of one account over the Income Statement's scope:
`Σ debit − Σ credit` over the flow-scoped lines touching its code. -/
def flowBalance (db : DB) (bid : String) (startDate endDate : Nat) (code : String) : ℚ :=
  rawNet (flowScopeLines db bid startDate endDate) code

/-- The raw net movement of one account over the Balance Sheet's scope. -/
def stockBalance (db : DB) (bid : String) (endDate : Nat) (code : String) : ℚ :=
  rawNet (stockScopeLines db bid endDate) code

/-- Sum of all (defaulted) debit fields of a line sequence. -/
def sumDebits (ls : List RawLine) : ℚ := (ls.map (fun l => toNum l.debit)).sum

/-- Sum of all (defaulted) credit fields of a line sequence. -/
def sumCredits (ls : List RawLine) : ℚ := (ls.map (fun l => toNum l.credit)).sum

/-! Concrete data sets used by witnesses and counterexamples. -/

/-- A data set whose single entry is internally balanced but posts against an
income account (the spec's own sale scenario): cash 500 debit, sales 500
credit. -/
def dbSale : DB :=
  { accounts := [⟨"10", "Caja", AccountType.asset, "Activo Corriente"⟩,
                 ⟨"70", "Ventas", AccountType.income, "Ingresos"⟩],
    entries := [⟨"e1", 10, "b1", "venta al contado", none⟩],
    lines := [⟨1, "e1", "10", "Caja", RawNum.num 500, RawNum.num 0⟩,
              ⟨2, "e1", "70", "Ventas", RawNum.num 0, RawNum.num 500⟩] }

/-- A data set whose single balanced entry touches only balance-sheet
accounts: cash 500 debit against a loan 500 credit. -/
def dbLoan : DB :=
  { accounts := [⟨"10", "Caja", AccountType.asset, "Activo Corriente"⟩,
                 ⟨"45", "Prestamos", AccountType.liability, "Pasivo No Corriente"⟩],
    entries := [⟨"e1", 10, "b1", "prestamo recibido", none⟩],
    lines := [⟨1, "e1", "10", "Caja", RawNum.num 500, RawNum.num 0⟩,
              ⟨2, "e1", "45", "Prestamos", RawNum.num 0, RawNum.num 500⟩] }

/-- `dbSale` with its account list and its line list both reversed. -/
def dbSaleP : DB :=
  { accounts := [⟨"70", "Ventas", AccountType.income, "Ingresos"⟩,
                 ⟨"10", "Caja", AccountType.asset, "Activo Corriente"⟩],
    entries := [⟨"e1", 10, "b1", "venta al contado", none⟩],
    lines := [⟨2, "e1", "70", "Ventas", RawNum.num 0, RawNum.num 500⟩,
              ⟨1, "e1", "10", "Caja", RawNum.num 500, RawNum.num 0⟩] }

/-- A data set holding one deliberately unbalanced entry
(debit 150 / credit 100). -/
def dbUnbal : DB :=
  { accounts := [],
    entries := [⟨"e1", 10, "b1", "asiento desbalanceado", none⟩],
    lines := [⟨1, "e1", "60", "Compras", RawNum.num 150, RawNum.num 0⟩,
              ⟨2, "e1", "10", "Caja", RawNum.num 0, RawNum.num 100⟩] }

/-- A data set holding one entry whose totals differ by only `0.005`. -/
def dbTinyDiff : DB :=
  { accounts := [],
    entries := [⟨"e1", 10, "b1", "redondeo", none⟩],
    lines := [⟨1, "e1", "10", "Caja", RawNum.num (1 / 200), RawNum.num 0⟩] }

/-- A data set with one journal line posting to an account code (`"99"`)
missing from the chart of accounts. -/
def dbOrphan : DB :=
  { accounts := [⟨"70", "Ventas", AccountType.income, "Ingresos"⟩],
    entries := [⟨"e1", 10, "b1", "venta", none⟩],
    lines := [⟨1, "e1", "70", "Ventas", RawNum.num 0, RawNum.num 100⟩,
              ⟨2, "e1", "99", "Desconocida", RawNum.num 100, RawNum.num 0⟩] }

/-- The combined entry the hook produces for `dbUnbal`. -/
def eUnbal : AccountingEntry :=
  { id := "e1", date := 10, business_id := "b1", description := "asiento desbalanceado",
    transaction_id := none,
    lines := [⟨1, "60", "Compras", 150, 0⟩, ⟨2, "10", "Caja", 0, 100⟩] }

/-- The combined entry the hook produces for `dbTinyDiff`. -/
def eTiny : AccountingEntry :=
  { id := "e1", date := 10, business_id := "b1", description := "redondeo",
    transaction_id := none,
    lines := [⟨1, "10", "Caja", 1 / 200, 0⟩] }

end ContablePeru

namespace ContablePeru

/-! Helper lemmas about the balances fold. -/

theorem sumValues_addToBalances (bs : List (String × ℚ)) (code : String) (amt : ℚ) :
    sumValues (addToBalances bs code amt) = sumValues bs + amt := by
  induction bs with
  | nil => simp [addToBalances, sumValues]
  | cons p rest ih =>
    obtain ⟨c, v⟩ := p
    by_cases h : c = code
    · simp [addToBalances, h, sumValues]
      ring
    · simp [addToBalances, h, sumValues] at ih ⊢
      rw [ih]
      ring

theorem sumValues_foldl (ls : List RawLine) (bs : List (String × ℚ)) :
    sumValues (ls.foldl (fun bs l => addToBalances bs l.account_code (lineNet l)) bs)
      = sumValues bs + (ls.map lineNet).sum := by
  induction ls generalizing bs with
  | nil => simp
  | cons l rest ih =>
    simp only [List.foldl_cons, List.map_cons, List.sum_cons]
    rw [ih, sumValues_addToBalances]
    ring

/-- Conservation law of the fold: the values of the balances map sum to the
total net movement of the lines. -/
theorem sumValues_balancesOf (ls : List RawLine) :
    sumValues (balancesOf ls) = (ls.map lineNet).sum := by
  rw [balancesOf, sumValues_foldl]
  simp [sumValues]

theorem lookupBalance_nil (c : String) : lookupBalance [] c = 0 := rfl

theorem lookupBalance_cons (k : String) (v : ℚ) (rest : List (String × ℚ)) (c : String) :
    lookupBalance ((k, v) :: rest) c = if k = c then v else lookupBalance rest c := by
  by_cases h : k = c
  · simp [lookupBalance, List.find?_cons, h]
  · simp [lookupBalance, List.find?_cons, h]

theorem lookup_addToBalances (bs : List (String × ℚ)) (code c : String) (amt : ℚ) :
    lookupBalance (addToBalances bs code amt) c
      = lookupBalance bs c + (if c = code then amt else 0) := by
  induction bs with
  | nil =>
    simp only [addToBalances, lookupBalance_cons, lookupBalance_nil]
    by_cases h : c = code
    · rw [if_pos h, if_pos h.symm]
      ring
    · rw [if_neg h, if_neg (fun hc : code = c => h hc.symm)]
      ring
  | cons p rest ih =>
    obtain ⟨k, v⟩ := p
    simp only [addToBalances]
    by_cases hk : k = code
    · rw [if_pos hk, lookupBalance_cons, lookupBalance_cons]
      by_cases hc : k = c
      · rw [if_pos hc, if_pos hc, if_pos (show c = code by rw [← hc]; exact hk)]
      · rw [if_neg hc, if_neg hc,
            if_neg (show ¬c = code by intro h; exact hc (by rw [hk, ← h]))]
        ring
    · rw [if_neg hk, lookupBalance_cons, lookupBalance_cons]
      by_cases hc : k = c
      · rw [if_pos hc, if_pos hc,
            if_neg (show ¬c = code by intro h; exact hk (by rw [hc, h]))]
        ring
      · rw [if_neg hc, if_neg hc, ih]

theorem rawNet_nil (c : String) : rawNet [] c = 0 := rfl

theorem rawNet_cons (l : RawLine) (ls : List RawLine) (c : String) :
    rawNet (l :: ls) c = (if l.account_code = c then lineNet l else 0) + rawNet ls c := by
  by_cases h : l.account_code = c
  · simp [rawNet, List.filter_cons, h]
  · simp [rawNet, List.filter_cons, h]

theorem lookup_foldl (ls : List RawLine) (bs : List (String × ℚ)) (c : String) :
    lookupBalance (ls.foldl (fun bs l => addToBalances bs l.account_code (lineNet l)) bs) c
      = lookupBalance bs c + rawNet ls c := by
  induction ls generalizing bs with
  | nil => simp [rawNet]
  | cons l rest ih =>
    simp only [List.foldl_cons]
    rw [ih, lookup_addToBalances, rawNet_cons]
    by_cases h : l.account_code = c
    · rw [if_pos h, if_pos h.symm]
      ring
    · rw [if_neg h, if_neg (fun hc : c = l.account_code => h hc.symm)]
      ring

/-- Reading the balances map at `code` gives exactly the net movement of the
lines with that account code. -/
theorem lookup_balancesOf (ls : List RawLine) (c : String) :
    lookupBalance (balancesOf ls) c = rawNet ls c := by
  rw [balancesOf, lookup_foldl]
  simp [lookupBalance]

theorem scopedBalances_lookup (db : DB) (ids : List String) (c : String) :
    lookupBalance (scopedBalances (okFetch db) ids) c
      = rawNet (db.lines.filter (fun l => ids.contains l.entry_id)) c := by
  by_cases h : ids.isEmpty
  · have hnil : ids = [] := List.isEmpty_iff.mp h
    subst hnil
    simp [scopedBalances, rawNet, lookupBalance]
  · simp only [scopedBalances, if_neg h, linesQuery, okFetch, if_true]
    exact lookup_balancesOf _ c

theorem flowBalance_lookup (db : DB) (bid : String) (s e : Nat) (c : String) :
    lookupBalance (scopedBalances (okFetch db) (flowEntryIds db bid s e)) c
      = flowBalance db bid s e c :=
  scopedBalances_lookup db (flowEntryIds db bid s e) c

theorem stockBalance_lookup (db : DB) (bid : String) (e : Nat) (c : String) :
    lookupBalance (scopedBalances (okFetch db) (stockEntryIds db bid e)) c
      = stockBalance db bid e c :=
  scopedBalances_lookup db (stockEntryIds db bid e) c

theorem loadIncomeStatement_ok (db : DB) (bid : String) (s e : Nat) :
    loadIncomeStatement (okFetch db) bid s e =
      { incomeAccounts := (((sortByCode (db.accounts.filter isIncomeOrExpense)).filter
            (fun a => a.account_type = AccountType.income)).map
            (fun a => AccountBalance.mk a.code a.name
              (-(lookupBalance (scopedBalances (okFetch db) (flowEntryIds db bid s e))
                a.code)) a.category)).filter (fun a => a.balance ≠ 0),
        expenseAccounts := (((sortByCode (db.accounts.filter isIncomeOrExpense)).filter
            (fun a => a.account_type = AccountType.expense)).map
            (fun a => AccountBalance.mk a.code a.name
              (lookupBalance (scopedBalances (okFetch db) (flowEntryIds db bid s e))
                a.code) a.category)).filter (fun a => a.balance ≠ 0) } := rfl

theorem loadBalanceSheet_ok (db : DB) (bid : String) (e : Nat) :
    loadBalanceSheet (okFetch db) bid e =
      { assetAccounts := (((sortByCode (db.accounts.filter isBalanceSheetType)).filter
            (fun a => a.account_type = AccountType.asset)).map
            (fun a => AccountBalance.mk a.code a.name
              (lookupBalance (scopedBalances (okFetch db) (stockEntryIds db bid e))
                a.code) a.category)).filter (fun a => a.balance ≠ 0),
        liabilityAccounts := (((sortByCode (db.accounts.filter isBalanceSheetType)).filter
            (fun a => a.account_type = AccountType.liability)).map
            (fun a => AccountBalance.mk a.code a.name
              (-(lookupBalance (scopedBalances (okFetch db) (stockEntryIds db bid e))
                a.code)) a.category)).filter (fun a => a.balance ≠ 0),
        equityAccounts := (((sortByCode (db.accounts.filter isBalanceSheetType)).filter
            (fun a => a.account_type = AccountType.equity)).map
            (fun a => AccountBalance.mk a.code a.name
              (-(lookupBalance (scopedBalances (okFetch db) (stockEntryIds db bid e))
                a.code)) a.category)).filter (fun a => a.balance ≠ 0) } := rfl

theorem mem_sortByCode (a : Account) (xs : List Account) :
    a ∈ sortByCode xs ↔ a ∈ xs := List.mem_insertionSort _

theorem mem_incomeAccounts (db : DB) (bid : String) (s e : Nat) (ab : AccountBalance) :
    ab ∈ (loadIncomeStatement (okFetch db) bid s e).incomeAccounts ↔
      ∃ a, a ∈ db.accounts ∧ a.account_type = AccountType.income
        ∧ ab = AccountBalance.mk a.code a.name (-(flowBalance db bid s e a.code)) a.category
        ∧ flowBalance db bid s e a.code ≠ 0 := by
  rw [loadIncomeStatement_ok]
  simp only [List.mem_filter, List.mem_map, mem_sortByCode, decide_eq_true_eq,
    isIncomeOrExpense, flowBalance_lookup]
  constructor
  · rintro ⟨⟨a, ⟨⟨hmem, _hIE⟩, hty⟩, hab⟩, hnz⟩
    subst hab
    exact ⟨a, hmem, hty, rfl, fun h0 => hnz (by simp [h0])⟩
  · rintro ⟨a, hmem, hty, hab, hnz⟩
    subst hab
    exact ⟨⟨a, ⟨⟨hmem, Or.inl hty⟩, hty⟩, rfl⟩, by simpa using hnz⟩

theorem mem_expenseAccounts (db : DB) (bid : String) (s e : Nat) (ab : AccountBalance) :
    ab ∈ (loadIncomeStatement (okFetch db) bid s e).expenseAccounts ↔
      ∃ a, a ∈ db.accounts ∧ a.account_type = AccountType.expense
        ∧ ab = AccountBalance.mk a.code a.name (flowBalance db bid s e a.code) a.category
        ∧ flowBalance db bid s e a.code ≠ 0 := by
  rw [loadIncomeStatement_ok]
  simp only [List.mem_filter, List.mem_map, mem_sortByCode, decide_eq_true_eq,
    isIncomeOrExpense, flowBalance_lookup]
  constructor
  · rintro ⟨⟨a, ⟨⟨hmem, _hIE⟩, hty⟩, hab⟩, hnz⟩
    subst hab
    exact ⟨a, hmem, hty, rfl, fun h0 => hnz (by simp [h0])⟩
  · rintro ⟨a, hmem, hty, hab, hnz⟩
    subst hab
    exact ⟨⟨a, ⟨⟨hmem, Or.inr hty⟩, hty⟩, rfl⟩, by simpa using hnz⟩

theorem mem_assetAccounts (db : DB) (bid : String) (e : Nat) (ab : AccountBalance) :
    ab ∈ (loadBalanceSheet (okFetch db) bid e).assetAccounts ↔
      ∃ a, a ∈ db.accounts ∧ a.account_type = AccountType.asset
        ∧ ab = AccountBalance.mk a.code a.name (stockBalance db bid e a.code) a.category
        ∧ stockBalance db bid e a.code ≠ 0 := by
  rw [loadBalanceSheet_ok]
  simp only [List.mem_filter, List.mem_map, mem_sortByCode, decide_eq_true_eq,
    isBalanceSheetType, stockBalance_lookup]
  constructor
  · rintro ⟨⟨a, ⟨⟨hmem, _hT⟩, hty⟩, hab⟩, hnz⟩
    subst hab
    exact ⟨a, hmem, hty, rfl, fun h0 => hnz (by simp [h0])⟩
  · rintro ⟨a, hmem, hty, hab, hnz⟩
    subst hab
    exact ⟨⟨a, ⟨⟨hmem, Or.inl hty⟩, hty⟩, rfl⟩, by simpa using hnz⟩

theorem mem_liabilityAccounts (db : DB) (bid : String) (e : Nat) (ab : AccountBalance) :
    ab ∈ (loadBalanceSheet (okFetch db) bid e).liabilityAccounts ↔
      ∃ a, a ∈ db.accounts ∧ a.account_type = AccountType.liability
        ∧ ab = AccountBalance.mk a.code a.name (-(stockBalance db bid e a.code)) a.category
        ∧ stockBalance db bid e a.code ≠ 0 := by
  rw [loadBalanceSheet_ok]
  simp only [List.mem_filter, List.mem_map, mem_sortByCode, decide_eq_true_eq,
    isBalanceSheetType, stockBalance_lookup]
  constructor
  · rintro ⟨⟨a, ⟨⟨hmem, _hT⟩, hty⟩, hab⟩, hnz⟩
    subst hab
    exact ⟨a, hmem, hty, rfl, fun h0 => hnz (by simp [h0])⟩
  · rintro ⟨a, hmem, hty, hab, hnz⟩
    subst hab
    exact ⟨⟨a, ⟨⟨hmem, Or.inr (Or.inl hty)⟩, hty⟩, rfl⟩, by simpa using hnz⟩

theorem mem_equityAccounts (db : DB) (bid : String) (e : Nat) (ab : AccountBalance) :
    ab ∈ (loadBalanceSheet (okFetch db) bid e).equityAccounts ↔
      ∃ a, a ∈ db.accounts ∧ a.account_type = AccountType.equity
        ∧ ab = AccountBalance.mk a.code a.name (-(stockBalance db bid e a.code)) a.category
        ∧ stockBalance db bid e a.code ≠ 0 := by
  rw [loadBalanceSheet_ok]
  simp only [List.mem_filter, List.mem_map, mem_sortByCode, decide_eq_true_eq,
    isBalanceSheetType, stockBalance_lookup]
  constructor
  · rintro ⟨⟨a, ⟨⟨hmem, _hT⟩, hty⟩, hab⟩, hnz⟩
    subst hab
    exact ⟨a, hmem, hty, rfl, fun h0 => hnz (by simp [h0])⟩
  · rintro ⟨a, hmem, hty, hab, hnz⟩
    subst hab
    exact ⟨⟨a, ⟨⟨hmem, Or.inr (Or.inr hty)⟩, hty⟩, rfl⟩, by simpa using hnz⟩

/-- C3: a surfaced statement balance is `+b` for asset and expense accounts
and `−b` for liability, equity and income accounts, where `b` is the raw net
movement `Σ debit − Σ credit` of the account over the statement's in-scope
lines; the rule is the same in the Income Statement and the Balance Sheet. -/
theorem sign_convention (db : DB) (bid : String) (startDate endDate : Nat)
    (ab : AccountBalance) :
    (ab ∈ (loadIncomeStatement (okFetch db) bid startDate endDate).incomeAccounts ↔
      ∃ a, a ∈ db.accounts ∧ a.account_type = AccountType.income
        ∧ ab = AccountBalance.mk a.code a.name
            (-(flowBalance db bid startDate endDate a.code)) a.category
        ∧ flowBalance db bid startDate endDate a.code ≠ 0)
    ∧ (ab ∈ (loadIncomeStatement (okFetch db) bid startDate endDate).expenseAccounts ↔
      ∃ a, a ∈ db.accounts ∧ a.account_type = AccountType.expense
        ∧ ab = AccountBalance.mk a.code a.name
            (flowBalance db bid startDate endDate a.code) a.category
        ∧ flowBalance db bid startDate endDate a.code ≠ 0)
    ∧ (ab ∈ (loadBalanceSheet (okFetch db) bid endDate).assetAccounts ↔
      ∃ a, a ∈ db.accounts ∧ a.account_type = AccountType.asset
        ∧ ab = AccountBalance.mk a.code a.name
            (stockBalance db bid endDate a.code) a.category
        ∧ stockBalance db bid endDate a.code ≠ 0)
    ∧ (ab ∈ (loadBalanceSheet (okFetch db) bid endDate).liabilityAccounts ↔
      ∃ a, a ∈ db.accounts ∧ a.account_type = AccountType.liability
        ∧ ab = AccountBalance.mk a.code a.name
            (-(stockBalance db bid endDate a.code)) a.category
        ∧ stockBalance db bid endDate a.code ≠ 0)
    ∧ (ab ∈ (loadBalanceSheet (okFetch db) bid endDate).equityAccounts ↔
      ∃ a, a ∈ db.accounts ∧ a.account_type = AccountType.equity
        ∧ ab = AccountBalance.mk a.code a.name
            (-(stockBalance db bid endDate a.code)) a.category
        ∧ stockBalance db bid endDate a.code ≠ 0) :=
  ⟨mem_incomeAccounts db bid startDate endDate ab,
   mem_expenseAccounts db bid startDate endDate ab,
   mem_assetAccounts db bid endDate ab,
   mem_liabilityAccounts db bid endDate ab,
   mem_equityAccounts db bid endDate ab⟩

/-- C4: for every sequence of journal lines fed to the balance accumulator,
the sum over all account codes of the accumulated net movement equals the
sum of all debits minus the sum of all credits; missing and malformed
numeric fields contribute zero (the fold is a total function, so
accumulation never fails), and an empty line sequence yields an empty
mapping. -/
theorem balancesOf_conservation (ls : List RawLine) :
    sumValues (balancesOf ls) = sumDebits ls - sumCredits ls
      ∧ balancesOf [] = []
      ∧ toNum RawNum.missing = 0 ∧ toNum RawNum.malformed = 0 := by
  refine ⟨?_, rfl, rfl, rfl⟩
  rw [sumValues_balancesOf]
  induction ls with
  | nil => simp [sumDebits, sumCredits]
  | cons l rest ih =>
    simp only [List.map_cons, List.sum_cons, sumDebits, sumCredits] at ih ⊢
    rw [ih, lineNet]
    ring

/-- C2: the Balance Sheet's stock scope selects exactly the entries dated on
or before `endDate` (no `startDate` bound appears in its query), while the
Income Statement's flow scope selects exactly the entries dated within
`[startDate, endDate]`; both intersect with the conditional business
filter. -/
theorem scope_entry_ids (db : DB) (bid : String) (startDate endDate : Nat) (i : String) :
    (i ∈ stockEntryIds db bid endDate ↔
      ∃ en, en ∈ db.entries ∧ en.id = i ∧ en.date ≤ endDate
        ∧ businessApplies bid en = true)
    ∧ (i ∈ flowEntryIds db bid startDate endDate ↔
      ∃ en, en ∈ db.entries ∧ en.id = i ∧ startDate ≤ en.date ∧ en.date ≤ endDate
        ∧ businessApplies bid en = true)
    ∧ entriesQueryStock (okFetch db) bid endDate = some (stockEntries db bid endDate)
    ∧ entriesQueryFlow (okFetch db) bid startDate endDate
        = some (flowEntries db bid startDate endDate) := by
  refine ⟨?_, ?_, rfl, rfl⟩
  · simp only [stockEntryIds, stockEntries, List.mem_map, List.mem_filter,
      Bool.and_eq_true, decide_eq_true_eq]
    constructor
    · rintro ⟨en, ⟨hmem, hdate, hbus⟩, hid⟩
      exact ⟨en, hmem, hid, hdate, hbus⟩
    · rintro ⟨en, hmem, hid, hdate, hbus⟩
      exact ⟨en, ⟨hmem, hdate, hbus⟩, hid⟩
  · simp only [flowEntryIds, flowEntries, List.mem_map, List.mem_filter,
      Bool.and_eq_true, decide_eq_true_eq]
    constructor
    · rintro ⟨en, ⟨hmem, ⟨hs, he⟩, hbus⟩, hid⟩
      exact ⟨en, hmem, hid, hs, he, hbus⟩
    · rintro ⟨en, hmem, hid, hs, he, hbus⟩
      exact ⟨en, ⟨hmem, ⟨hs, he⟩, hbus⟩, hid⟩

theorem foldl_add_balance (xs : List AccountBalance) (q : ℚ) :
    xs.foldl (fun sum acc => sum + acc.balance) q
      = q + (xs.map AccountBalance.balance).sum := by
  induction xs generalizing q with
  | nil => simp
  | cons x rest ih =>
    simp only [List.foldl_cons, List.map_cons, List.sum_cons, ih]
    ring

theorem sumAccountBalances_eq (xs : List AccountBalance) :
    sumAccountBalances xs = (xs.map AccountBalance.balance).sum := by
  rw [sumAccountBalances, foldl_add_balance]
  ring

theorem sumAccountBalances_perm (xs ys : List AccountBalance) (h : List.Perm xs ys) :
    sumAccountBalances xs = sumAccountBalances ys := by
  rw [sumAccountBalances_eq, sumAccountBalances_eq]
  exact (h.map _).sum_eq

theorem rawNet_perm (ls₁ ls₂ : List RawLine) (h : List.Perm ls₁ ls₂) (c : String) :
    rawNet ls₁ c = rawNet ls₂ c := ((h.filter _).map _).sum_eq

theorem flowBalance_congr (db db' : DB) (bid : String) (s e : Nat)
    (hent : db'.entries = db.entries) (hlin : List.Perm db'.lines db.lines) (c : String) :
    flowBalance db' bid s e c = flowBalance db bid s e c := by
  have hids : flowEntryIds db' bid s e = flowEntryIds db bid s e := by
    unfold flowEntryIds flowEntries
    rw [hent]
  unfold flowBalance flowScopeLines
  rw [hids]
  exact rawNet_perm _ _ (hlin.filter _) c

theorem incomeAccounts_perm (db db' : DB) (bid : String) (s e : Nat)
    (hacc : List.Perm db'.accounts db.accounts) (hent : db'.entries = db.entries)
    (hlin : List.Perm db'.lines db.lines) :
    List.Perm (loadIncomeStatement (okFetch db') bid s e).incomeAccounts
      (loadIncomeStatement (okFetch db) bid s e).incomeAccounts := by
  rw [loadIncomeStatement_ok, loadIncomeStatement_ok]
  simp only [flowBalance_lookup]
  simp only [flowBalance_congr db db' bid s e hent hlin]
  have hp : List.Perm (sortByCode (db'.accounts.filter isIncomeOrExpense))
      (sortByCode (db.accounts.filter isIncomeOrExpense)) :=
    ((List.perm_insertionSort _ _).trans (hacc.filter _)).trans
      (List.perm_insertionSort _ _).symm
  exact ((hp.filter _).map _).filter _

theorem expenseAccounts_perm (db db' : DB) (bid : String) (s e : Nat)
    (hacc : List.Perm db'.accounts db.accounts) (hent : db'.entries = db.entries)
    (hlin : List.Perm db'.lines db.lines) :
    List.Perm (loadIncomeStatement (okFetch db') bid s e).expenseAccounts
      (loadIncomeStatement (okFetch db) bid s e).expenseAccounts := by
  rw [loadIncomeStatement_ok, loadIncomeStatement_ok]
  simp only [flowBalance_lookup]
  simp only [flowBalance_congr db db' bid s e hent hlin]
  have hp : List.Perm (sortByCode (db'.accounts.filter isIncomeOrExpense))
      (sortByCode (db.accounts.filter isIncomeOrExpense)) :=
    ((List.perm_insertionSort _ _).trans (hacc.filter _)).trans
      (List.perm_insertionSort _ _).symm
  exact ((hp.filter _).map _).filter _

/-- C8: `netIncome = totalIncome − totalExpenses` holds for every input, and
`totalIncome`, `totalExpenses` and `netIncome` are invariant under any
permutation of the supplied accounts or journal lines. -/
theorem income_statement_algebra (db db' : DB) (bid : String) (startDate endDate : Nat)
    (hacc : List.Perm db'.accounts db.accounts) (hent : db'.entries = db.entries)
    (hlin : List.Perm db'.lines db.lines) :
    netIncome (loadIncomeStatement (okFetch db) bid startDate endDate)
        = totalIncome (loadIncomeStatement (okFetch db) bid startDate endDate)
          - totalExpenses (loadIncomeStatement (okFetch db) bid startDate endDate)
      ∧ totalIncome (loadIncomeStatement (okFetch db') bid startDate endDate)
        = totalIncome (loadIncomeStatement (okFetch db) bid startDate endDate)
      ∧ totalExpenses (loadIncomeStatement (okFetch db') bid startDate endDate)
        = totalExpenses (loadIncomeStatement (okFetch db) bid startDate endDate)
      ∧ netIncome (loadIncomeStatement (okFetch db') bid startDate endDate)
        = netIncome (loadIncomeStatement (okFetch db) bid startDate endDate) := by
  have hi := sumAccountBalances_perm _ _
    (incomeAccounts_perm db db' bid startDate endDate hacc hent hlin)
  have he := sumAccountBalances_perm _ _
    (expenseAccounts_perm db db' bid startDate endDate hacc hent hlin)
  refine ⟨rfl, hi, he, ?_⟩
  unfold netIncome totalIncome totalExpenses
  rw [hi, he]

theorem mem_addToGroup (gs : List (String × List AccountBalance)) (item x : AccountBalance) :
    x ∈ groupMembers (addToGroup gs item) ↔ x ∈ groupMembers gs ∨ x = item := by
  induction gs with
  | nil => simp [addToGroup, groupMembers]
  | cons g rest ih =>
    obtain ⟨c, xs⟩ := g
    by_cases h : c = item.category
    · simp only [addToGroup, if_pos h, groupMembers, List.map_cons, List.flatten_cons,
        List.mem_append, List.mem_cons, List.mem_singleton]
      tauto
    · simp only [addToGroup, if_neg h, groupMembers, List.map_cons, List.flatten_cons,
        List.mem_append] at ih ⊢
      tauto

theorem mem_groupByCategory_foldl (xs : List AccountBalance)
    (gs : List (String × List AccountBalance)) (x : AccountBalance) :
    x ∈ groupMembers (xs.foldl addToGroup gs) ↔ x ∈ groupMembers gs ∨ x ∈ xs := by
  induction xs generalizing gs with
  | nil => simp
  | cons a rest ih =>
    simp only [List.foldl_cons, ih, mem_addToGroup, List.mem_cons]
    tauto

/-- A balance appears somewhere in the grouped output exactly when it appears
in the surfaced account list the grouping was built from. -/
theorem mem_groupByCategory (xs : List AccountBalance) (x : AccountBalance) :
    x ∈ groupMembers (groupByCategory xs) ↔ x ∈ xs := by
  rw [groupByCategory, mem_groupByCategory_foldl]
  simp [groupMembers]

/-- C9: zero-balance accounts never appear in the category-grouped output of
either summary statement (nor in the Balance Sheet's ungrouped equity list),
and every account of the right type whose normalized balance is nonzero is
included. -/
theorem zero_balance_exclusion (db : DB) (bid : String) (startDate endDate : Nat) :
    (∀ ab ∈ groupMembers (groupByCategory
        (loadIncomeStatement (okFetch db) bid startDate endDate).incomeAccounts),
      ab.balance ≠ 0)
    ∧ (∀ ab ∈ groupMembers (groupByCategory
        (loadIncomeStatement (okFetch db) bid startDate endDate).expenseAccounts),
      ab.balance ≠ 0)
    ∧ (∀ ab ∈ groupMembers (groupByCategory
        (loadBalanceSheet (okFetch db) bid endDate).assetAccounts), ab.balance ≠ 0)
    ∧ (∀ ab ∈ groupMembers (groupByCategory
        (loadBalanceSheet (okFetch db) bid endDate).liabilityAccounts), ab.balance ≠ 0)
    ∧ (∀ ab ∈ (loadBalanceSheet (okFetch db) bid endDate).equityAccounts, ab.balance ≠ 0)
    ∧ (∀ a ∈ db.accounts, a.account_type = AccountType.income
        → -(flowBalance db bid startDate endDate a.code) ≠ 0
        → AccountBalance.mk a.code a.name
            (-(flowBalance db bid startDate endDate a.code)) a.category
          ∈ groupMembers (groupByCategory
            (loadIncomeStatement (okFetch db) bid startDate endDate).incomeAccounts))
    ∧ (∀ a ∈ db.accounts, a.account_type = AccountType.expense
        → flowBalance db bid startDate endDate a.code ≠ 0
        → AccountBalance.mk a.code a.name
            (flowBalance db bid startDate endDate a.code) a.category
          ∈ groupMembers (groupByCategory
            (loadIncomeStatement (okFetch db) bid startDate endDate).expenseAccounts))
    ∧ (∀ a ∈ db.accounts, a.account_type = AccountType.asset
        → stockBalance db bid endDate a.code ≠ 0
        → AccountBalance.mk a.code a.name (stockBalance db bid endDate a.code) a.category
          ∈ groupMembers (groupByCategory
            (loadBalanceSheet (okFetch db) bid endDate).assetAccounts))
    ∧ (∀ a ∈ db.accounts, a.account_type = AccountType.liability
        → -(stockBalance db bid endDate a.code) ≠ 0
        → AccountBalance.mk a.code a.name (-(stockBalance db bid endDate a.code)) a.category
          ∈ groupMembers (groupByCategory
            (loadBalanceSheet (okFetch db) bid endDate).liabilityAccounts))
    ∧ (∀ a ∈ db.accounts, a.account_type = AccountType.equity
        → -(stockBalance db bid endDate a.code) ≠ 0
        → AccountBalance.mk a.code a.name (-(stockBalance db bid endDate a.code)) a.category
          ∈ (loadBalanceSheet (okFetch db) bid endDate).equityAccounts) := by
  refine ⟨?_, ?_, ?_, ?_, ?_, ?_, ?_, ?_, ?_, ?_⟩
  · intro ab h
    rw [mem_groupByCategory, mem_incomeAccounts] at h
    obtain ⟨a, _, _, hab, hnz⟩ := h
    subst hab
    simpa using hnz
  · intro ab h
    rw [mem_groupByCategory, mem_expenseAccounts] at h
    obtain ⟨a, _, _, hab, hnz⟩ := h
    subst hab
    simpa using hnz
  · intro ab h
    rw [mem_groupByCategory, mem_assetAccounts] at h
    obtain ⟨a, _, _, hab, hnz⟩ := h
    subst hab
    simpa using hnz
  · intro ab h
    rw [mem_groupByCategory, mem_liabilityAccounts] at h
    obtain ⟨a, _, _, hab, hnz⟩ := h
    subst hab
    simpa using hnz
  · intro ab h
    rw [mem_equityAccounts] at h
    obtain ⟨a, _, _, hab, hnz⟩ := h
    subst hab
    simpa using hnz
  · intro a hmem hty hnz
    rw [mem_groupByCategory, mem_incomeAccounts]
    exact ⟨a, hmem, hty, rfl, fun h0 => hnz (by rw [h0, neg_zero])⟩
  · intro a hmem hty hnz
    rw [mem_groupByCategory, mem_expenseAccounts]
    exact ⟨a, hmem, hty, rfl, hnz⟩
  · intro a hmem hty hnz
    rw [mem_groupByCategory, mem_assetAccounts]
    exact ⟨a, hmem, hty, rfl, hnz⟩
  · intro a hmem hty hnz
    rw [mem_groupByCategory, mem_liabilityAccounts]
    exact ⟨a, hmem, hty, rfl, fun h0 => hnz (by rw [h0, neg_zero])⟩
  · intro a hmem hty hnz
    rw [mem_equityAccounts]
    exact ⟨a, hmem, hty, rfl, fun h0 => hnz (by rw [h0, neg_zero])⟩

theorem rawNet_append (xs ys : List RawLine) (c : String) :
    rawNet (xs ++ ys) c = rawNet xs c + rawNet ys c := by
  simp [rawNet, List.filter_append]

theorem rawNet_filter_erase (pre post : List RawLine) (l : RawLine) (P : RawLine → Bool)
    (c : String) (hne : l.account_code ≠ c) :
    rawNet ((pre ++ l :: post).filter P) c = rawNet ((pre ++ post).filter P) c := by
  rw [List.filter_append, List.filter_append, List.filter_cons]
  by_cases h : P l
  · rw [if_pos h, rawNet_append, rawNet_append, rawNet_cons, if_neg hne, zero_add]
  · rw [if_neg h]

theorem flowBalance_erase (db : DB) (pre post : List RawLine) (l : RawLine)
    (bid : String) (s e : Nat) (c : String) (hsplit : db.lines = pre ++ l :: post)
    (hne : l.account_code ≠ c) :
    flowBalance db bid s e c = flowBalance ⟨db.accounts, db.entries, pre ++ post⟩ bid s e c := by
  have hids : flowEntryIds (DB.mk db.accounts db.entries (pre ++ post)) bid s e
      = flowEntryIds db bid s e := rfl
  unfold flowBalance flowScopeLines
  rw [hids, hsplit]
  exact rawNet_filter_erase pre post l _ c hne

theorem stockBalance_erase (db : DB) (pre post : List RawLine) (l : RawLine)
    (bid : String) (e : Nat) (c : String) (hsplit : db.lines = pre ++ l :: post)
    (hne : l.account_code ≠ c) :
    stockBalance db bid e c = stockBalance ⟨db.accounts, db.entries, pre ++ post⟩ bid e c := by
  have hids : stockEntryIds (DB.mk db.accounts db.entries (pre ++ post)) bid e
      = stockEntryIds db bid e := rfl
  unfold stockBalance stockScopeLines
  rw [hids, hsplit]
  exact rawNet_filter_erase pre post l _ c hne

/-- C10: a journal line whose account code is absent from the chart accounts
fetched for a statement's account types is accumulated but never surfaced:
removing it leaves the statement's surfaced lists — hence all category
groups, subtotals and totals — literally unchanged. -/
theorem unknown_code_lines_ignored (db : DB) (pre post : List RawLine) (l : RawLine)
    (bid : String) (startDate endDate : Nat) (hsplit : db.lines = pre ++ l :: post) :
    (l.account_code ∉ (db.accounts.filter isIncomeOrExpense).map (fun a => a.code) →
      loadIncomeStatement (okFetch db) bid startDate endDate
          = loadIncomeStatement (okFetch ⟨db.accounts, db.entries, pre ++ post⟩)
              bid startDate endDate
        ∧ netIncome (loadIncomeStatement (okFetch db) bid startDate endDate)
          = netIncome (loadIncomeStatement (okFetch ⟨db.accounts, db.entries, pre ++ post⟩)
              bid startDate endDate)
        ∧ groupByCategory
            (loadIncomeStatement (okFetch db) bid startDate endDate).incomeAccounts
          = groupByCategory
            (loadIncomeStatement (okFetch ⟨db.accounts, db.entries, pre ++ post⟩)
              bid startDate endDate).incomeAccounts)
    ∧ (l.account_code ∉ (db.accounts.filter isBalanceSheetType).map (fun a => a.code) →
      loadBalanceSheet (okFetch db) bid endDate
          = loadBalanceSheet (okFetch ⟨db.accounts, db.entries, pre ++ post⟩) bid endDate
        ∧ balancedSignal (loadBalanceSheet (okFetch db) bid endDate)
          = balancedSignal
              (loadBalanceSheet (okFetch ⟨db.accounts, db.entries, pre ++ post⟩) bid endDate)) := by
  constructor
  · intro hout
    have hbalc : ∀ a ∈ sortByCode (db.accounts.filter isIncomeOrExpense),
        flowBalance db bid startDate endDate a.code
          = flowBalance ⟨db.accounts, db.entries, pre ++ post⟩ bid startDate endDate a.code := by
      intro a ha
      refine flowBalance_erase db pre post l bid startDate endDate a.code hsplit ?_
      intro hc
      exact hout (List.mem_map.mpr ⟨a, (mem_sortByCode a _).mp ha, hc.symm⟩)
    have hmain : loadIncomeStatement (okFetch db) bid startDate endDate
        = loadIncomeStatement (okFetch ⟨db.accounts, db.entries, pre ++ post⟩)
            bid startDate endDate := by
      rw [loadIncomeStatement_ok, loadIncomeStatement_ok]
      simp only [flowBalance_lookup]
      have heq1 : ((sortByCode (db.accounts.filter isIncomeOrExpense)).filter
            (fun a => a.account_type = AccountType.income)).map
            (fun a => AccountBalance.mk a.code a.name
              (-(flowBalance db bid startDate endDate a.code)) a.category)
          = ((sortByCode (db.accounts.filter isIncomeOrExpense)).filter
            (fun a => a.account_type = AccountType.income)).map
            (fun a => AccountBalance.mk a.code a.name
              (-(flowBalance ⟨db.accounts, db.entries, pre ++ post⟩
                bid startDate endDate a.code)) a.category) :=
        List.map_congr_left (fun a ha => by
          rw [hbalc a (List.mem_filter.mp ha).1])
      have heq2 : ((sortByCode (db.accounts.filter isIncomeOrExpense)).filter
            (fun a => a.account_type = AccountType.expense)).map
            (fun a => AccountBalance.mk a.code a.name
              (flowBalance db bid startDate endDate a.code) a.category)
          = ((sortByCode (db.accounts.filter isIncomeOrExpense)).filter
            (fun a => a.account_type = AccountType.expense)).map
            (fun a => AccountBalance.mk a.code a.name
              (flowBalance ⟨db.accounts, db.entries, pre ++ post⟩
                bid startDate endDate a.code) a.category) :=
        List.map_congr_left (fun a ha => by
          rw [hbalc a (List.mem_filter.mp ha).1])
      rw [heq1, heq2]
    exact ⟨hmain, by rw [hmain], by rw [hmain]⟩
  · intro hout
    have hbalc : ∀ a ∈ sortByCode (db.accounts.filter isBalanceSheetType),
        stockBalance db bid endDate a.code
          = stockBalance ⟨db.accounts, db.entries, pre ++ post⟩ bid endDate a.code := by
      intro a ha
      refine stockBalance_erase db pre post l bid endDate a.code hsplit ?_
      intro hc
      exact hout (List.mem_map.mpr ⟨a, (mem_sortByCode a _).mp ha, hc.symm⟩)
    have hmain : loadBalanceSheet (okFetch db) bid endDate
        = loadBalanceSheet (okFetch ⟨db.accounts, db.entries, pre ++ post⟩) bid endDate := by
      rw [loadBalanceSheet_ok, loadBalanceSheet_ok]
      simp only [stockBalance_lookup]
      have heq1 : ((sortByCode (db.accounts.filter isBalanceSheetType)).filter
            (fun a => a.account_type = AccountType.asset)).map
            (fun a => AccountBalance.mk a.code a.name
              (stockBalance db bid endDate a.code) a.category)
          = ((sortByCode (db.accounts.filter isBalanceSheetType)).filter
            (fun a => a.account_type = AccountType.asset)).map
            (fun a => AccountBalance.mk a.code a.name
              (stockBalance ⟨db.accounts, db.entries, pre ++ post⟩ bid endDate a.code)
              a.category) :=
        List.map_congr_left (fun a ha => by
          rw [hbalc a (List.mem_filter.mp ha).1])
      have heq2 : ((sortByCode (db.accounts.filter isBalanceSheetType)).filter
            (fun a => a.account_type = AccountType.liability)).map
            (fun a => AccountBalance.mk a.code a.name
              (-(stockBalance db bid endDate a.code)) a.category)
          = ((sortByCode (db.accounts.filter isBalanceSheetType)).filter
            (fun a => a.account_type = AccountType.liability)).map
            (fun a => AccountBalance.mk a.code a.name
              (-(stockBalance ⟨db.accounts, db.entries, pre ++ post⟩ bid endDate a.code))
              a.category) :=
        List.map_congr_left (fun a ha => by
          rw [hbalc a (List.mem_filter.mp ha).1])
      have heq3 : ((sortByCode (db.accounts.filter isBalanceSheetType)).filter
            (fun a => a.account_type = AccountType.equity)).map
            (fun a => AccountBalance.mk a.code a.name
              (-(stockBalance db bid endDate a.code)) a.category)
          = ((sortByCode (db.accounts.filter isBalanceSheetType)).filter
            (fun a => a.account_type = AccountType.equity)).map
            (fun a => AccountBalance.mk a.code a.name
              (-(stockBalance ⟨db.accounts, db.entries, pre ++ post⟩ bid endDate a.code))
              a.category) :=
        List.map_congr_left (fun a ha => by
          rw [hbalc a (List.mem_filter.mp ha).1])
      rw [heq1, heq2, heq3]
    exact ⟨hmain, by rw [hmain]⟩

theorem sum_map_add {α : Type} (K : List α) (f g : α → ℚ) :
    (K.map (fun c => f c + g c)).sum = (K.map f).sum + (K.map g).sum := by
  induction K with
  | nil => simp
  | cons k rest ih =>
    simp only [List.map_cons, List.sum_cons, ih]
    ring

theorem sum_ite_mem (K : List String) (hK : K.Nodup) (c : String) (x : ℚ) :
    (K.map (fun i => if c = i then x else 0)).sum = if c ∈ K then x else 0 := by
  induction K with
  | nil => simp
  | cons k rest ih =>
    rw [List.nodup_cons] at hK
    obtain ⟨hk, hrest⟩ := hK
    simp only [List.map_cons, List.sum_cons]
    by_cases h : c = k
    · subst h
      rw [if_pos rfl, ih hrest, if_neg hk, if_pos (List.mem_cons_self c rest), add_zero]
    · rw [if_neg h, ih hrest, zero_add]
      by_cases hm : c ∈ rest
      · rw [if_pos hm, if_pos (List.mem_cons_of_mem k hm)]
      · rw [if_neg hm, if_neg (fun hc => (List.mem_cons.mp hc).elim h hm)]

theorem sum_rawNet_over_codes (K : List String) (ls : List RawLine)
    (hnodup : K.Nodup) (hcover : ∀ l ∈ ls, l.account_code ∈ K) :
    (K.map (fun c => rawNet ls c)).sum = (ls.map lineNet).sum := by
  induction ls with
  | nil => simp [rawNet_nil]
  | cons l rest ih =>
    have hfun : (fun c => rawNet (l :: rest) c)
        = fun c => (if l.account_code = c then lineNet l else 0) + rawNet rest c :=
      funext (rawNet_cons l rest)
    rw [hfun, sum_map_add, sum_ite_mem K hnodup l.account_code (lineNet l),
      if_pos (hcover l (List.mem_cons_self l rest)),
      ih (fun x hx => hcover x (List.mem_cons_of_mem l hx))]
    simp

theorem sum_net_partition (xs : List RawLine) (K : List String) (hK : K.Nodup) :
    ((xs.filter (fun l => K.contains l.entry_id)).map lineNet).sum
      = (K.map (fun i => ((xs.filter (fun l => l.entry_id = i)).map lineNet).sum)).sum := by
  induction xs with
  | nil => simp
  | cons x rest ih =>
    have hR : ∀ i : String, ((List.filter (fun l => decide (l.entry_id = i)) (x :: rest)).map
          lineNet).sum
        = (if x.entry_id = i then lineNet x else 0)
          + ((rest.filter (fun l => l.entry_id = i)).map lineNet).sum := by
      intro i
      rw [List.filter_cons]
      by_cases h : x.entry_id = i
      · simp [h]
      · simp [h]
    simp only [hR]
    rw [sum_map_add, sum_ite_mem K hK x.entry_id (lineNet x), List.filter_cons]
    by_cases hm : x.entry_id ∈ K
    · have hd : K.contains x.entry_id = true := by simpa using hm
      rw [hd, if_pos rfl, if_pos hm, List.map_cons, List.sum_cons, ih]
    · have hd : K.contains x.entry_id = false := by simpa using hm
      rw [hd, if_neg (by simp), if_neg hm, ih, zero_add]

/-- If every journal entry is internally balanced, the total net movement of
the lines of any entry-id-scoped selection is zero. -/
theorem inscope_sum_zero (db : DB) (bid : String) (e : Nat)
    (hbal : ∀ en ∈ db.entries,
      ((db.lines.filter (fun l => l.entry_id = en.id)).map lineNet).sum = 0) :
    ((stockScopeLines db bid e).map lineNet).sum = 0 := by
  unfold stockScopeLines
  have hfe : db.lines.filter (fun l => (stockEntryIds db bid e).contains l.entry_id)
      = db.lines.filter (fun l => ((stockEntryIds db bid e).dedup).contains l.entry_id) := by
    apply List.filter_congr
    intro x _
    by_cases hx : x.entry_id ∈ stockEntryIds db bid e
    · have h1 : (stockEntryIds db bid e).contains x.entry_id = true := by simpa using hx
      have h2 : ((stockEntryIds db bid e).dedup).contains x.entry_id = true := by
        simpa [List.mem_dedup] using hx
      rw [h1, h2]
    · have h1 : (stockEntryIds db bid e).contains x.entry_id = false := by simpa using hx
      have h2 : ((stockEntryIds db bid e).dedup).contains x.entry_id = false := by
        simpa [List.mem_dedup] using hx
      rw [h1, h2]
  rw [hfe, sum_net_partition _ _ (List.nodup_dedup _)]
  apply List.sum_eq_zero
  intro q hq
  rw [List.mem_map] at hq
  obtain ⟨i, hi, hqi⟩ := hq
  have hiS : i ∈ stockEntryIds db bid e := List.mem_dedup.mp hi
  rw [stockEntryIds, List.mem_map] at hiS
  obtain ⟨en, henf, hid⟩ := hiS
  have hen : en ∈ db.entries := (List.mem_filter.mp henf).1
  subst hqi
  rw [← hid]
  exact hbal en hen

theorem sumAccountBalances_filter_ne (xs : List AccountBalance) :
    sumAccountBalances (xs.filter (fun a => a.balance ≠ 0)) = sumAccountBalances xs := by
  rw [sumAccountBalances_eq, sumAccountBalances_eq]
  induction xs with
  | nil => rfl
  | cons x rest ih =>
    rw [List.filter_cons]
    by_cases h : x.balance = 0
    · rw [if_neg (by simp [h]), List.map_cons, List.sum_cons, h, zero_add, ih]
    · rw [if_pos (by simp [h]), List.map_cons, List.map_cons, List.sum_cons,
        List.sum_cons, ih]

theorem sum_three_type_filters (ys : List Account) (f : Account → ℚ)
    (hALE : ∀ a ∈ ys, isBalanceSheetType a = true) :
    ((ys.filter (fun a => a.account_type = AccountType.asset)).map f).sum
      + ((ys.filter (fun a => a.account_type = AccountType.liability)).map f).sum
      + ((ys.filter (fun a => a.account_type = AccountType.equity)).map f).sum
      = (ys.map f).sum := by
  induction ys with
  | nil => simp
  | cons a rest ih =>
    have hrest := ih (fun x hx => hALE x (List.mem_cons_of_mem a hx))
    have ha := hALE a (List.mem_cons_self a rest)
    rw [isBalanceSheetType, decide_eq_true_eq] at ha
    rcases ha with h | h | h
    · simp [List.filter_cons, h]
      linarith [hrest]
    · simp [List.filter_cons, h]
      linarith [hrest]
    · simp [List.filter_cons, h]
      linarith [hrest]

theorem sum_map_neg (ys : List Account) (f : Account → ℚ) :
    (ys.map (fun a => -(f a))).sum = -((ys.map f).sum) := by
  induction ys with
  | nil => simp
  | cons a rest ih =>
    simp only [List.map_cons, List.sum_cons, ih]
    ring

/-- Dropping the zero-balance filter does not change a surfaced list's total,
and the total of the surfaced balances is the sum of the underlying values. -/
theorem sum_surfaced (xs : List Account) (v : Account → ℚ) :
    sumAccountBalances ((xs.map
        (fun a => AccountBalance.mk a.code a.name (v a) a.category)).filter
      (fun a => a.balance ≠ 0)) = (xs.map v).sum := by
  rw [sumAccountBalances_filter_ne, sumAccountBalances_eq, List.map_map]
  rfl

theorem sum_stockBalance_over_accounts (ys : List Account) (db : DB) (bid : String)
    (e : Nat) (hnodup : (ys.map (fun a => a.code)).Nodup)
    (hcover : ∀ l ∈ stockScopeLines db bid e, l.account_code ∈ ys.map (fun a => a.code)) :
    (ys.map (fun a => stockBalance db bid e a.code)).sum
      = ((stockScopeLines db bid e).map lineNet).sum := by
  have h := sum_rawNet_over_codes (ys.map (fun a => a.code)) (stockScopeLines db bid e)
    hnodup hcover
  rw [List.map_map] at h
  exact h

/-- C1 (amended): with every entry internally balanced, no entry excluded by
the business filter, account codes unique, and — the hypothesis the
counterexample forces — every in-scope line posting to an account present in
the balance-sheet chart (asset/liability/equity), the accounting equation
holds exactly, so also within the 0.01 tolerance, and the balanced signal is
true. Without the coverage hypothesis the claim is false: lines posting to
income/expense accounts enter the cumulative fold but are never surfaced. -/
theorem balance_sheet_equation (db : DB) (bid : String) (endDate : Nat)
    (hnodup : (db.accounts.map (fun a => a.code)).Nodup)
    (hbal : ∀ en ∈ db.entries,
      ((db.lines.filter (fun l => l.entry_id = en.id)).map lineNet).sum = 0)
    (_hbus : ∀ en ∈ db.entries, businessApplies bid en = true)
    (hcover : ∀ l ∈ stockScopeLines db bid endDate,
      l.account_code ∈ (db.accounts.filter isBalanceSheetType).map (fun a => a.code)) :
    totalAssets (loadBalanceSheet (okFetch db) bid endDate)
        = totalLiabilitiesAndEquity (loadBalanceSheet (okFetch db) bid endDate)
      ∧ balancedSignal (loadBalanceSheet (okFetch db) bid endDate) = true := by
  have hALE : ∀ a ∈ sortByCode (db.accounts.filter isBalanceSheetType),
      isBalanceSheetType a = true := by
    intro a ha
    exact (List.mem_filter.mp ((mem_sortByCode a _).mp ha)).2
  have hA : totalAssets (loadBalanceSheet (okFetch db) bid endDate)
      = (((sortByCode (db.accounts.filter isBalanceSheetType)).filter
          (fun a => a.account_type = AccountType.asset)).map
          (fun a => stockBalance db bid endDate a.code)).sum := by
    rw [totalAssets, loadBalanceSheet_ok]
    simp only [stockBalance_lookup]
    exact sum_surfaced _ _
  have hL : totalLiabilities (loadBalanceSheet (okFetch db) bid endDate)
      = -((((sortByCode (db.accounts.filter isBalanceSheetType)).filter
          (fun a => a.account_type = AccountType.liability)).map
          (fun a => stockBalance db bid endDate a.code)).sum) := by
    rw [totalLiabilities, loadBalanceSheet_ok]
    simp only [stockBalance_lookup]
    have h := sum_surfaced ((sortByCode (db.accounts.filter isBalanceSheetType)).filter
        (fun a => a.account_type = AccountType.liability))
      (fun a => -(stockBalance db bid endDate a.code))
    rw [sum_map_neg] at h
    exact h
  have hE : totalEquity (loadBalanceSheet (okFetch db) bid endDate)
      = -((((sortByCode (db.accounts.filter isBalanceSheetType)).filter
          (fun a => a.account_type = AccountType.equity)).map
          (fun a => stockBalance db bid endDate a.code)).sum) := by
    rw [totalEquity, loadBalanceSheet_ok]
    simp only [stockBalance_lookup]
    have h := sum_surfaced ((sortByCode (db.accounts.filter isBalanceSheetType)).filter
        (fun a => a.account_type = AccountType.equity))
      (fun a => -(stockBalance db bid endDate a.code))
    rw [sum_map_neg] at h
    exact h
  have hn1 : ((db.accounts.filter isBalanceSheetType).map (fun a => a.code)).Nodup :=
    hnodup.sublist ((List.filter_sublist db.accounts).map (fun a => a.code))
  have hpK : List.Perm ((sortByCode (db.accounts.filter isBalanceSheetType)).map
      (fun a => a.code)) ((db.accounts.filter isBalanceSheetType).map (fun a => a.code)) :=
    (List.perm_insertionSort _ _).map _
  have hnK : ((sortByCode (db.accounts.filter isBalanceSheetType)).map
      (fun a => a.code)).Nodup := hpK.nodup_iff.mpr hn1
  have hcK : ∀ l ∈ stockScopeLines db bid endDate,
      l.account_code ∈ (sortByCode (db.accounts.filter isBalanceSheetType)).map
        (fun a => a.code) := fun l hl => hpK.mem_iff.mpr (hcover l hl)
  have hzero : ((sortByCode (db.accounts.filter isBalanceSheetType)).map
      (fun a => stockBalance db bid endDate a.code)).sum = 0 := by
    rw [sum_stockBalance_over_accounts _ db bid endDate hnK hcK]
    exact inscope_sum_zero db bid endDate hbal
  have h3 := sum_three_type_filters (sortByCode (db.accounts.filter isBalanceSheetType))
    (fun a => stockBalance db bid endDate a.code) hALE
  have hmain : totalAssets (loadBalanceSheet (okFetch db) bid endDate)
      = totalLiabilitiesAndEquity (loadBalanceSheet (okFetch db) bid endDate) := by
    rw [hA, totalLiabilitiesAndEquity, hL, hE]
    rw [hzero] at h3
    linarith [h3]
  refine ⟨hmain, ?_⟩
  rw [balancedSignal]
  simp only [decide_eq_true_eq]
  rw [hmain, sub_self, abs_zero]
  norm_num

/-- C1 as stated is false: `dbSale` satisfies the claim's hypotheses — its
only entry is internally balanced (500 debit, 500 credit) and no entry is
excluded by the `'all'` business filter — yet the sale's credit posts to an
income account absent from the balance-sheet chart, so `totalAssets = 500`
faces `totalLiabilities + totalEquity = 0` and the balanced signal is
false. -/
theorem balance_sheet_equation_counterexample :
    (∀ en ∈ dbSale.entries,
      ((dbSale.lines.filter (fun l => l.entry_id = en.id)).map lineNet).sum = 0)
    ∧ (∀ en ∈ dbSale.entries, businessApplies "all" en = true)
    ∧ totalAssets (loadBalanceSheet (okFetch dbSale) "all" 20) = 500
    ∧ totalLiabilitiesAndEquity (loadBalanceSheet (okFetch dbSale) "all" 20) = 0
    ∧ balancedSignal (loadBalanceSheet (okFetch dbSale) "all" 20) = false := by
  have hA : totalAssets (loadBalanceSheet (okFetch dbSale) "all" 20) = 500 := by
    unfold totalAssets
    rw [loadBalanceSheet_ok]
    simp [dbSale, sortByCode, List.insertionSort, List.orderedInsert, accountCodeLe,
      ltCodes, isBalanceSheetType, stockEntryIds, stockEntries, businessApplies,
      scopedBalances, linesQuery, okFetch, balancesOf, addToBalances, lineNet, toNum,
      lookupBalance, List.find?, sumAccountBalances]
  have hLE : totalLiabilitiesAndEquity (loadBalanceSheet (okFetch dbSale) "all" 20) = 0 := by
    unfold totalLiabilitiesAndEquity totalLiabilities totalEquity
    rw [loadBalanceSheet_ok]
    simp [dbSale, sortByCode, List.insertionSort, List.orderedInsert, accountCodeLe,
      ltCodes, isBalanceSheetType, stockEntryIds, stockEntries, businessApplies,
      scopedBalances, linesQuery, okFetch, balancesOf, addToBalances, lineNet, toNum,
      lookupBalance, List.find?, sumAccountBalances]
  refine ⟨?_, by decide, hA, hLE, ?_⟩
  · intro en hen
    simp only [dbSale, List.mem_singleton] at hen
    subst hen
    simp [dbSale, lineNet, toNum]
  · unfold balancedSignal
    rw [hA, hLE, decide_eq_false_iff_not]
    norm_num

/-- C1 witness: the amended accounting-equation theorem applied to the
all-balance-sheet data set `dbLoan`. -/
theorem balance_sheet_equation_witness :
    (∀ en ∈ dbLoan.entries,
      ((dbLoan.lines.filter (fun l => l.entry_id = en.id)).map lineNet).sum = 0)
    ∧ (totalAssets (loadBalanceSheet (okFetch dbLoan) "all" 20)
        = totalLiabilitiesAndEquity (loadBalanceSheet (okFetch dbLoan) "all" 20)
      ∧ balancedSignal (loadBalanceSheet (okFetch dbLoan) "all" 20) = true) := by
  have hb : ∀ en ∈ dbLoan.entries,
      ((dbLoan.lines.filter (fun l => l.entry_id = en.id)).map lineNet).sum = 0 := by
    intro en hen
    simp only [dbLoan, List.mem_singleton] at hen
    subst hen
    simp [dbLoan, lineNet, toNum]
  exact ⟨hb, balance_sheet_equation dbLoan "all" 20 (by decide) hb (by decide) (by decide)⟩

/-- C6 as stated is false for the duplicate resolver `getPeriodDates` of the
`AccountingEntries` page: an unrecognized token resolves to
`{ start: undefined, end: undefined }`, not to the `current-month` range. -/
theorem getPeriodDates_unknown_ne_currentMonth :
    getPeriodDates "unknown-token" ⟨2024, 3, 15⟩
      ≠ getPeriodDates "current-month" ⟨2024, 3, 15⟩ := by
  decide

/-- C6 (amended): `getDateRangeFromPeriod` behaves exactly as claimed —
`current-month` yields the first and last calendar day of `now`'s month,
`all` yields both bounds empty, and every unrecognized token yields the
`current-month` result; the duplicate `getPeriodDates` instead maps every
token outside its three recognized ones — including `all` and every
unrecognized token — to both bounds absent. Both resolvers are total
functions of a single `now`, so they never raise and capture `now` once. -/
theorem period_resolver_spec (now : SimpleDate) :
    getDateRangeFromPeriod "current-month" now
        = ⟨formatDate ⟨now.year, now.month, 1⟩,
           formatDate ⟨now.year, now.month, daysInMonth now.year now.month⟩⟩
    ∧ getDateRangeFromPeriod "all" now = ⟨"", ""⟩
    ∧ (∀ p, p ≠ "current-month" → p ≠ "last-month" → p ≠ "current-quarter"
        → p ≠ "current-year" → p ≠ "last-year" → p ≠ "all"
        → getDateRangeFromPeriod p now = getDateRangeFromPeriod "current-month" now)
    ∧ getPeriodDates "all" now = ⟨none, none⟩
    ∧ (∀ p, p ≠ "current-month" → p ≠ "last-month" → p ≠ "current-year"
        → getPeriodDates p now = ⟨none, none⟩) := by
  refine ⟨?_, ?_, ?_, ?_, ?_⟩
  · simp [getDateRangeFromPeriod, startOfMonth, endOfMonth]
  · simp [getDateRangeFromPeriod]
  · intro p h1 h2 h3 h4 h5 h6
    simp [getDateRangeFromPeriod, h1, h2, h3, h4, h5, h6]
  · simp [getPeriodDates]
  · intro p h1 h2 h3
    simp [getPeriodDates, h1, h2, h3]

/-- C6 witness: the amended resolver theorem applied at a concrete
unrecognized token and a concrete `now`. -/
theorem period_resolver_spec_witness :
    getDateRangeFromPeriod "bogus" ⟨2024, 3, 15⟩
        = getDateRangeFromPeriod "current-month" ⟨2024, 3, 15⟩
      ∧ getPeriodDates "bogus" ⟨2024, 3, 15⟩ = ⟨none, none⟩ := by
  refine ⟨(period_resolver_spec ⟨2024, 3, 15⟩).2.2.1 "bogus"
      (by decide) (by decide) (by decide) (by decide) (by decide) (by decide),
    (period_resolver_spec ⟨2024, 3, 15⟩).2.2.2.2 "bogus"
      (by decide) (by decide) (by decide)⟩

theorem surfaced_empty_of_zero (xs : List Account) (v : Account → ℚ)
    (hv : ∀ a, v a = 0) :
    ((xs.map (fun a => AccountBalance.mk a.code a.name (v a) a.category)).filter
      (fun a => a.balance ≠ 0)) = [] := by
  induction xs with
  | nil => rfl
  | cons a rest ih =>
    rw [List.map_cons, List.filter_cons, if_neg (by simp [hv a]), ih]

/-- C5 as stated is false for the statement builders: a failed entries fetch
on a data set that holds real journal data yields exactly the same (empty)
Balance Sheet state as a legitimate empty report would, masking the failure
instead of propagating it. -/
theorem fetch_failure_masked :
    loadBalanceSheet ⟨dbLoan, true, false, true⟩ "all" 20
        = BalanceSheetState.mk [] [] []
      ∧ loadBalanceSheet (okFetch dbLoan) "all" 20 ≠ BalanceSheetState.mk [] [] [] := by
  constructor
  · rw [show (⟨dbLoan, true, false, true⟩ : Fetch)
        = { db := dbLoan, accountsOk := true, entriesOk := false, linesOk := true } from rfl]
    unfold loadBalanceSheet accountsQueryALE entriesQueryStock scopedBalances
    simp [dbLoan, sortByCode, List.insertionSort, List.orderedInsert, accountCodeLe,
      ltCodes, isBalanceSheetType, lookupBalance]
  · intro hcontra
    have h : totalAssets (loadBalanceSheet (okFetch dbLoan) "all" 20) = 0 := by
      rw [hcontra]
      rfl
    have h500 : totalAssets (loadBalanceSheet (okFetch dbLoan) "all" 20) = 500 := by
      unfold totalAssets
      rw [loadBalanceSheet_ok]
      simp [dbLoan, sortByCode, List.insertionSort, List.orderedInsert, accountCodeLe,
        ltCodes, isBalanceSheetType, stockEntryIds, stockEntries, businessApplies,
        scopedBalances, linesQuery, okFetch, balancesOf, addToBalances, lineNet, toNum,
        lookupBalance, List.find?, sumAccountBalances]
    rw [h] at h500
    norm_num at h500

/-- C5 (amended): a failed fetch in the `useAccountingEntries` hook is
propagated to the caller as a thrown, distinguishable error (`entriesError`
or `linesError`) and no fragmentary result is returned; but the Income Statement
and Balance Sheet builders do not propagate — a failed accounts, entries or
lines fetch there produces an empty statement, indistinguishable from a
legitimately empty report. -/
theorem fetch_failure_behaviour (f : Fetch) (o : EntriesOptions) (bid : String)
    (startDate endDate : Nat) :
    (f.entriesOk = false → useAccountingEntriesQuery f o = Except.error "entriesError")
    ∧ (f.entriesOk = true → f.linesOk = false →
        (f.db.entries.filter (hookEntriesFilter o)).isEmpty = false →
        useAccountingEntriesQuery f o = Except.error "linesError")
    ∧ (f.accountsOk = false →
        loadIncomeStatement f bid startDate endDate = IncomeStatementState.mk [] []
        ∧ loadBalanceSheet f bid endDate = BalanceSheetState.mk [] [] [])
    ∧ (f.entriesOk = false →
        loadIncomeStatement f bid startDate endDate = IncomeStatementState.mk [] []
        ∧ loadBalanceSheet f bid endDate = BalanceSheetState.mk [] [] [])
    ∧ (f.linesOk = false →
        loadIncomeStatement f bid startDate endDate = IncomeStatementState.mk [] []
        ∧ loadBalanceSheet f bid endDate = BalanceSheetState.mk [] [] []) := by
  refine ⟨?_, ?_, ?_, ?_, ?_⟩
  · intro h
    unfold useAccountingEntriesQuery
    rw [h]
    rfl
  · intro h1 h2 h3
    unfold useAccountingEntriesQuery
    rw [h1, h2]
    have hne : (sortByDateDesc (f.db.entries.filter (hookEntriesFilter o))).isEmpty
        = false := by
      have hp : List.Perm (sortByDateDesc (f.db.entries.filter (hookEntriesFilter o)))
          (f.db.entries.filter (hookEntriesFilter o)) := List.perm_insertionSort _ _
      rcases hs : sortByDateDesc (f.db.entries.filter (hookEntriesFilter o)) with _ | ⟨x, xs⟩
      · rw [hs] at hp
        have : f.db.entries.filter (hookEntriesFilter o) = [] := hp.nil_eq.symm
        rw [this] at h3
        simp at h3
      · rfl
    simp [hne]
  · intro h
    have hq : accountsQueryIE f = none := by
      unfold accountsQueryIE
      rw [h]
      rfl
    have hq2 : accountsQueryALE f = none := by
      unfold accountsQueryALE
      rw [h]
      rfl
    constructor
    · unfold loadIncomeStatement
      rw [hq]
    · unfold loadBalanceSheet
      rw [hq2]
  · intro h
    constructor
    · unfold loadIncomeStatement
      rcases hq : accountsQueryIE f with _ | accounts
      · rfl
      · have hids : ((entriesQueryFlow f bid startDate endDate).map
            (fun es => es.map (fun e => e.id))).getD [] = [] := by
          unfold entriesQueryFlow
          rw [h]
          rfl
        simp [hids, scopedBalances]
        refine ⟨fun a x hx hty hmk => ?_, fun a x hx hty hmk => ?_⟩ <;>
          (subst hmk; simp [lookupBalance_nil])
    · unfold loadBalanceSheet
      rcases hq : accountsQueryALE f with _ | accounts
      · rfl
      · have hids : ((entriesQueryStock f bid endDate).map
            (fun es => es.map (fun e => e.id))).getD [] = [] := by
          unfold entriesQueryStock
          rw [h]
          rfl
        simp [hids, scopedBalances]
        refine ⟨fun a x hx hty hmk => ?_, fun a x hx hty hmk => ?_,
            fun a x hx hty hmk => ?_⟩ <;>
          (subst hmk; simp [lookupBalance_nil])
  · intro h
    have hsb : ∀ ids : List String, scopedBalances f ids = [] := by
      intro ids
      unfold scopedBalances linesQuery
      rw [h]
      simp
    constructor
    · unfold loadIncomeStatement
      rcases hq : accountsQueryIE f with _ | accounts
      · rfl
      · simp [hsb]
        refine ⟨fun a x hx hty hmk => ?_, fun a x hx hty hmk => ?_⟩ <;>
          (subst hmk; simp [lookupBalance_nil])
    · unfold loadBalanceSheet
      rcases hq : accountsQueryALE f with _ | accounts
      · rfl
      · simp [hsb]
        refine ⟨fun a x hx hty hmk => ?_, fun a x hx hty hmk => ?_,
            fun a x hx hty hmk => ?_⟩ <;>
          (subst hmk; simp [lookupBalance_nil])

/-- C5 witness: the amended fetch-failure theorem applied to concrete
failing fetches over `dbLoan` — a failed entries fetch for the hook and the
Balance Sheet, and a failed lines fetch for the Income Statement. -/
theorem fetch_failure_behaviour_witness :
    useAccountingEntriesQuery ⟨dbLoan, true, false, true⟩ ⟨none, none, none⟩
        = Except.error "entriesError"
      ∧ loadBalanceSheet ⟨dbLoan, true, false, true⟩ "all" 20
        = BalanceSheetState.mk [] [] []
      ∧ loadIncomeStatement ⟨dbLoan, true, true, false⟩ "all" 0 20
        = IncomeStatementState.mk [] [] :=
  ⟨(fetch_failure_behaviour ⟨dbLoan, true, false, true⟩ ⟨none, none, none⟩ "all" 0 20).1 rfl,
   ((fetch_failure_behaviour ⟨dbLoan, true, false, true⟩ ⟨none, none, none⟩
      "all" 0 20).2.2.2.1 rfl).2,
   ((fetch_failure_behaviour ⟨dbLoan, true, true, false⟩ ⟨none, none, none⟩
      "all" 0 20).2.2.2.2 rfl).1⟩

/-- C7 (amended): every entry the hook returns appears in the entry listing
with its balanced badge, regardless of balance; an entry whose totals differ
by at least 0.01 is flagged `balanced = false`, while an entry whose totals
differ by less than 0.01 — the tolerance the original claim overlooks — is
flagged `balanced = true`; the listing and both statement builders are
total functions, so an unbalanced entry can never make report generation
throw. -/
theorem unbalanced_entry_listed (f : Fetch) (o : EntriesOptions)
    (res : List AccountingEntry) (en : AccountingEntry)
    (_hres : useAccountingEntriesQuery f o = Except.ok res) (hen : en ∈ res) :
    ListedEntry.mk en (isBalancedEntry en) ∈ listEntries res
      ∧ (1 / 100 ≤ |entryTotalDebit en - entryTotalCredit en| →
          isBalancedEntry en = false)
      ∧ (|entryTotalDebit en - entryTotalCredit en| < 1 / 100 →
          isBalancedEntry en = true) := by
  refine ⟨List.mem_map.mpr ⟨en, hen, rfl⟩, ?_, ?_⟩
  · intro hdiff
    rw [isBalancedEntry, decide_eq_false_iff_not]
    exact not_lt.mpr hdiff
  · intro hdiff
    rw [isBalancedEntry, decide_eq_true_eq]
    exact hdiff

/-- C7 as stated is false when an entry's totals differ by less than the
badge's 0.01 tolerance: `dbTinyDiff`'s entry has total debit `1/200` and
total credit `0` — the totals differ — yet it is listed with
`balanced = true`. -/
theorem unbalanced_flag_tolerance_counterexample :
    useAccountingEntriesQuery (okFetch dbTinyDiff) ⟨none, none, none⟩ = Except.ok [eTiny]
      ∧ entryTotalDebit eTiny ≠ entryTotalCredit eTiny
      ∧ listEntries [eTiny] = [ListedEntry.mk eTiny true] := by
  refine ⟨rfl, ?_, ?_⟩
  · norm_num [entryTotalDebit, entryTotalCredit, eTiny]
  · have hb : isBalancedEntry eTiny = true := by
      rw [isBalancedEntry, decide_eq_true_eq]
      norm_num [entryTotalDebit, entryTotalCredit, eTiny]
      rw [abs_of_nonneg (by norm_num : (0:ℚ) ≤ 1 / 200)]
      norm_num
    simp only [listEntries, List.map_cons, List.map_nil, hb]

/-- C7 witness: the amended listing theorem applied to the concrete
150-debit / 100-credit entry of `dbUnbal`. -/
theorem unbalanced_entry_listed_witness :
    useAccountingEntriesQuery (okFetch dbUnbal) ⟨none, none, none⟩ = Except.ok [eUnbal]
      ∧ eUnbal ∈ [eUnbal]
      ∧ 1 / 100 ≤ |entryTotalDebit eUnbal - entryTotalCredit eUnbal|
      ∧ (ListedEntry.mk eUnbal (isBalancedEntry eUnbal) ∈ listEntries [eUnbal]
        ∧ isBalancedEntry eUnbal = false) := by
  have hd : 1 / 100 ≤ |entryTotalDebit eUnbal - entryTotalCredit eUnbal| := by
    norm_num [entryTotalDebit, entryTotalCredit, eUnbal]
  have h := unbalanced_entry_listed (okFetch dbUnbal) ⟨none, none, none⟩
    [eUnbal] eUnbal rfl (by simp)
  exact ⟨rfl, by simp, hd, h.1, h.2.1 hd⟩

/-- C8 witness: the Income Statement algebra theorem applied to `dbSale` and
its permuted variant `dbSaleP`. -/
theorem income_statement_algebra_witness :
    List.Perm dbSaleP.accounts dbSale.accounts
      ∧ List.Perm dbSaleP.lines dbSale.lines
      ∧ netIncome (loadIncomeStatement (okFetch dbSaleP) "all" 0 20)
        = netIncome (loadIncomeStatement (okFetch dbSale) "all" 0 20) := by
  have hacc : List.Perm dbSaleP.accounts dbSale.accounts := by decide
  have hlin : List.Perm dbSaleP.lines dbSale.lines := List.Perm.swap _ _ _
  exact ⟨hacc, hlin,
    (income_statement_algebra dbSale dbSaleP "all" 0 20 hacc rfl hlin).2.2.2⟩

/-- C9 witness: the zero-balance theorem applied to `dbSale`, whose Ventas
account has nonzero normalized balance 500 and is therefore included in the
grouped income output. -/
theorem zero_balance_exclusion_witness :
    -(flowBalance dbSale "all" 0 20 "70") ≠ 0
      ∧ AccountBalance.mk "70" "Ventas" (-(flowBalance dbSale "all" 0 20 "70")) "Ingresos"
        ∈ groupMembers (groupByCategory
          (loadIncomeStatement (okFetch dbSale) "all" 0 20).incomeAccounts) := by
  have hfb : flowBalance dbSale "all" 0 20 "70" = -500 := by
    simp [flowBalance, flowScopeLines, flowEntryIds, flowEntries, dbSale,
      businessApplies, rawNet, lineNet, toNum, List.filter_cons, List.filter_nil]
  have hnz : -(flowBalance dbSale "all" 0 20 "70") ≠ 0 := by
    rw [hfb]
    norm_num
  exact ⟨hnz, (zero_balance_exclusion dbSale "all" 0 20).2.2.2.2.2.1
    ⟨"70", "Ventas", AccountType.income, "Ingresos"⟩ (by decide) rfl hnz⟩

/-- C10 witness: the unknown-code theorem applied to `dbOrphan`, whose line
posting to the absent code `"99"` can be removed without changing the
Income Statement. -/
theorem unknown_code_lines_ignored_witness :
    ("99" ∉ (dbOrphan.accounts.filter isIncomeOrExpense).map (fun a => a.code))
      ∧ loadIncomeStatement (okFetch dbOrphan) "all" 0 20
        = loadIncomeStatement (okFetch ⟨dbOrphan.accounts, dbOrphan.entries,
            [⟨1, "e1", "70", "Ventas", RawNum.num 0, RawNum.num 100⟩]⟩) "all" 0 20 := by
  have hout : (RawLine.mk 2 "e1" "99" "Desconocida" (RawNum.num 100)
        (RawNum.num 0)).account_code
      ∉ (dbOrphan.accounts.filter isIncomeOrExpense).map (fun a => a.code) := by decide
  exact ⟨hout, ((unknown_code_lines_ignored dbOrphan
    [⟨1, "e1", "70", "Ventas", RawNum.num 0, RawNum.num 100⟩] []
    ⟨2, "e1", "99", "Desconocida", RawNum.num 100, RawNum.num 0⟩ "all" 0 20 rfl).1
      hout).1⟩

end ContablePeru
